import Mathlib

/-!
Shallow embedding of the euchre-async game engine
(`src/screens/Game.tsx`, `src/lib/deal.ts`, `src/lib/cards.ts`,
`src/screens/Home.tsx`), together with theorems settling the frozen
claims about it.

The source is TypeScript executed as JavaScript (the build strips types
without checking them), so the embedding follows the *runtime* semantics:

* A `CardCode` is a two-character string `rank ++ suit`; we embed it as a
  structure of a rank and a suit.  `parseCard` becomes the two field
  projections, `suitCharFromCard` becomes `Card.suit`.
* `trickStrength` computes `150 + rank` (etc.) where `rank` is a *string*
  character; at runtime this is string concatenation, so the function's
  result is a JavaScript value that is either a number or a string.  We
  embed those values as `JSVal` and JavaScript's `>` comparison as `jsGt`
  (both-strings: code-unit lexicographic order; otherwise `ToNumber`
  coercion where a non-numeric string is `NaN` and every comparison with
  `NaN` is false).
* Firestore transactions re-read the state and re-validate; the component
  functions also pre-validate against the same snapshot the transaction
  will see for the claims in question, so each action embeds as one pure
  function `GState → … → Except GameErr GState`, where any `error` result
  means the action was rejected and no write was committed.  The
  `GameErr` constructor records which guard fired (an early `return`, a
  `setErr` message, or a thrown transaction error — all of them abort
  before any write).
-/

/-- The four seats, in the clockwise order of the `SEATS` array. -/
inductive Seat
  | N | E | S | W
deriving DecidableEq, Repr, Fintype

/-- The four suit characters "S" | "H" | "D" | "C". -/
inductive Suit
  | S | H | D | C
deriving DecidableEq, Repr

/-- The six rank characters "9" | "T" | "J" | "Q" | "K" | "A". -/
inductive Rank
  | R9 | RT | RJ | RQ | RK | RA
deriving DecidableEq, Repr

/-- A card code `rank ++ suit`; `parseCard` is the two projections. -/
structure Card where
  rank : Rank
  suit : Suit
deriving DecidableEq, Repr

/-- The `SEATS` constant. -/
def SEATS : List Seat := [Seat.N, Seat.E, Seat.S, Seat.W]

/-- The `SUITS` constant. -/
def SUITS : List Suit := [Suit.S, Suit.H, Suit.D, Suit.C]

/-- The `RANKS` constant of `deal.ts`. -/
def RANKS : List Rank := [Rank.R9, Rank.RT, Rank.RJ, Rank.RQ, Rank.RK, Rank.RA]

/-- `nextSeat`: the seat at index `(indexOf seat + 1) % 4` of `SEATS`,
i.e. one step clockwise N→E→S→W→N. -/
def nextSeat : Seat → Seat
  | Seat.N => Seat.E
  | Seat.E => Seat.S
  | Seat.S => Seat.W
  | Seat.W => Seat.N

/-- Team keys: NS (team A) and EW (team B). -/
inductive TeamKey
  | NS | EW
deriving DecidableEq, Repr

/-- `teamKeyForSeat` / `teamOf` (the two are textually identical in the
source): N and S are NS, E and W are EW. -/
def teamKeyForSeat (seat : Seat) : TeamKey :=
  if seat = Seat.N ∨ seat = Seat.S then TeamKey.NS else TeamKey.EW

/-- `otherTeam`. -/
def otherTeam : TeamKey → TeamKey
  | TeamKey.NS => TeamKey.EW
  | TeamKey.EW => TeamKey.NS

/-- A `{NS, EW}` pair of numbers (used for both `score` and
`tricksTaken`). Scores only ever get incremented, so `Nat` is faithful. -/
structure Score where
  NS : Nat
  EW : Nat
deriving DecidableEq, Repr

/-- Read the component of a `{NS, EW}` pair named by a team key. -/
def scoreGet (sc : Score) : TeamKey → Nat
  | TeamKey.NS => sc.NS
  | TeamKey.EW => sc.EW

/-- `sc[team] += n`. -/
def scoreAdd (sc : Score) (team : TeamKey) (n : Nat) : Score :=
  match team with
  | TeamKey.NS => { sc with NS := sc.NS + n }
  | TeamKey.EW => { sc with EW := sc.EW + n }

/-- `winningTeam(score, target)`: NS first, then EW, else null. -/
def winningTeam (score : Score) (target : Nat) : Option TeamKey :=
  if target ≤ score.NS then some TeamKey.NS
  else if target ≤ score.EW then some TeamKey.EW
  else none

/-- `leftBowerSuit`: the same-color partner of the trump suit. -/
def leftBowerSuit : Suit → Suit
  | Suit.H => Suit.D
  | Suit.D => Suit.H
  | Suit.S => Suit.C
  | Suit.C => Suit.S

/-- `isJack`: `rankLabel(rank) === "J"`, i.e. the rank character is `J`
(`rankLabel` only rewrites `T` to `10`). -/
def isJack (code : Card) : Bool :=
  code.rank = Rank.RJ

/-- `effectiveSuit`: the printed suit, except that the Jack of the
same-color suit as trump (left bower) counts as trump. -/
def effectiveSuit (code : Card) (trump : Suit) : Suit :=
  if isJack code ∧ code.suit = leftBowerSuit trump then trump else code.suit

/-- `isRightBower`: the Jack of the trump suit. -/
def isRightBower (code : Card) (trump : Suit) : Bool :=
  isJack code ∧ code.suit = trump

/-- `isLeftBower`: the Jack of the same-color suit as trump. -/
def isLeftBower (code : Card) (trump : Suit) : Bool :=
  isJack code ∧ code.suit = leftBowerSuit trump

/-- `hasSuitInHand(hand, suit, trump)`: some card of the hand has the
given effective suit.  The TypeScript annotation says `suit: Suit`, but
the call site in `playCard` can pass the trick's stored `leadSuit`,
whose type is `Suit | null`; `===` against `null` is false for every
suit, so the parameter is embedded as `Option Suit` compared against
`some (effectiveSuit c trump)`. -/
def hasSuitInHand (hand : List Card) (suit : Option Suit) (trump : Suit) : Bool :=
  hand.any fun c => some (effectiveSuit c trump) = suit

/-- `removeOneCard`: remove the first occurrence (`indexOf` + `splice`);
if the card is absent the hand is returned unchanged. -/
def removeOneCard (hand : List Card) (code : Card) : List Card :=
  match hand with
  | [] => []
  | c :: cs => if c = code then cs else c :: removeOneCard cs code

/-!
### JavaScript value semantics for `trickStrength` / `winnerOfTrick`

`trickStrength` returns `150 + rank`, `100 + rank` or `0 + rank` where
`rank` is the rank *character* returned by `parseCard`; at runtime this
is number-plus-string, i.e. string concatenation ("1509", "150T", "0A",
…).  The bower branches return the numbers 200 and 199.  So the value
flowing into `winnerOfTrick`'s `score > bestScore` comparison is either
a number or a string, embedded here as `JSVal`.

JavaScript's `>`:
* if both operands are strings, compare them lexicographically by code
  unit;
* otherwise apply `ToNumber` to both and compare numerically, where a
  string that is not a numeral converts to `NaN` and any comparison
  involving `NaN` is false.

`jsToNumber` below implements `ToNumber` on exactly the character
repertoire `trickStrength` can produce (decimal digits, or a rank letter
making the string non-numeric): all-digit strings convert to their
value, any string containing a non-digit converts to `NaN` (`none`).
-/

/-- The character of a rank, as in the card-code string. -/
def rankChar : Rank → Char
  | Rank.R9 => '9'
  | Rank.RT => 'T'
  | Rank.RJ => 'J'
  | Rank.RQ => 'Q'
  | Rank.RK => 'K'
  | Rank.RA => 'A'

/-- A JavaScript number-or-string value. -/
inductive JSVal
  | num (n : Int)
  | str (s : List Char)
deriving DecidableEq, Repr

/-- JS `ToNumber` restricted to the strings produced by `trickStrength`:
an all-digit string is its decimal value, anything else is `NaN`
(`none`). -/
def jsToNumber (s : List Char) : Option Int :=
  if s.all Char.isDigit then
    some (s.foldl (fun acc c => acc * 10 + (Int.ofNat c.toNat - 48)) 0)
  else none

/-- Code-unit lexicographic strict order on strings (JS string `<`). -/
def jsStrLt (a b : List Char) : Bool :=
  match a, b with
  | [], [] => false
  | [], _ :: _ => true
  | _ :: _, [] => false
  | x :: xs, y :: ys =>
    if x.toNat < y.toNat then true
    else if y.toNat < x.toNat then false
    else jsStrLt xs ys

/-- JS `a > b`: lexicographic when both are strings, else numeric after
`ToNumber` with `NaN` making the comparison false. -/
def jsGt (a b : JSVal) : Bool :=
  match a, b with
  | JSVal.str x, JSVal.str y => jsStrLt y x
  | JSVal.num x, JSVal.num y => y < x
  | JSVal.num x, JSVal.str y =>
    match jsToNumber y with
    | some y' => y' < x
    | none => false
  | JSVal.str x, JSVal.num y =>
    match jsToNumber x with
    | some x' => y < x'
    | none => false

/-- `trickStrength(code, leadSuit, trump)`.  The bower branches return
numbers; the remaining branches return the runtime string
concatenations `"150" + rank`, `"100" + rank`, `"0" + rank`.  The
TypeScript annotation says `leadSuit: Suit`, but `playCard` can pass a
`null` lead suit through its `as Suit` cast, and `===` against `null`
is false, hence the `Option Suit` parameter. -/
def trickStrength (code : Card) (leadSuit : Option Suit) (trump : Suit) : JSVal :=
  if isRightBower code trump then JSVal.num 200
  else if isLeftBower code trump then JSVal.num 199
  else
    let eff := effectiveSuit code trump
    if eff = trump then JSVal.str ['1', '5', '0', rankChar code.rank]
    else if some eff = leadSuit then JSVal.str ['1', '0', '0', rankChar code.rank]
    else JSVal.str ['0', rankChar code.rank]

/-- `winnerOfTrick(cards, leadSeat, trump, leadSuit)`.  The `cards`
object maps each seat to its card; `Object.keys` enumerates the seats
in insertion order, so the object is embedded as the association list
in play order.  Starts from `bestSeat = leadSeat`, `bestScore = -1` and
keeps the seat whose strength wins the JS `>` comparison. -/
def winnerOfTrick (cards : List (Seat × Card)) (leadSeat : Seat)
    (trump : Suit) (leadSuit : Option Suit) : Seat :=
  (cards.foldl
    (fun best sc =>
      let score := trickStrength sc.2 leadSuit trump
      if jsGt score best.2 then (sc.1, score) else best)
    (leadSeat, JSVal.num (-1))).1

/-!
### Game state

`GameDoc` embeds the Firestore game document of `Game.tsx` (optional /
nullable fields become `Option`), `GState` pairs it with the per-seat
private hands (the `players/{uid}` documents keyed through
`game.seats`; an unoccupied seat simply has no readable hand, which the
actions guard with seat-occupancy checks exactly where the source
does). -/

/-- The `status` string field: "lobby" | "bidding" | "playing" |
"finished". -/
inductive Status
  | lobby | bidding | playing | finished
deriving DecidableEq, Repr

/-- The `phase` field.  In the document created by `Home.tsx` the field
is absent; every read treats an absent phase like `"lobby"`
(`game.phase ?? "lobby"`, and all guards test for a specific non-lobby
phase), so the embedding uses `lobby` for it. -/
inductive GamePhase
  | lobby | bidding_round_1 | bidding_round_2 | dealer_discard | playing
deriving DecidableEq, Repr

/-- The `bidding` record. -/
structure Bidding where
  round : Nat
  passes : List Seat
  orderedUpBy : Option Seat
deriving DecidableEq, Repr

/-- The `currentTrick` record; `cards` is the seat→card object in key
insertion order. -/
structure Trick where
  trickNumber : Nat
  leadSeat : Seat
  leadSuit : Option Suit
  cards : List (Seat × Card)
deriving DecidableEq, Repr

/-- The shared game document. -/
structure GameDoc where
  status : Status
  phase : GamePhase
  seats : Seat → Option String
  dealer : Seat
  turn : Seat
  score : Score
  handNumber : Nat
  upcard : Option Card
  kitty : Option (List Card)
  trump : Option Suit
  makerSeat : Option Seat
  bidding : Option Bidding
  currentTrick : Option Trick
  tricksTaken : Option Score
  trickWinners : Option (List Seat)
  winnerTeam : Option TeamKey

/-- The shared document plus the per-seat private hands. -/
structure GState where
  game : GameDoc
  hands : Seat → List Card

/-- `hands` with one seat's hand replaced. -/
def updateHands (h : Seat → List Card) (seat : Seat) (newHand : List Card) :
    Seat → List Card :=
  fun x => if x = seat then newHand else h x

/-- `cards[seat]` on the trick object. -/
def cardsGet (cards : List (Seat × Card)) (seat : Seat) : Option Card :=
  match cards with
  | [] => none
  | (s, c) :: rest => if s = seat then some c else cardsGet rest seat

/-- Which guard rejected an action.  Every constructor corresponds to a
code path that commits no write: an early `return`, a `setErr` +
`return`, or an error thrown inside the transaction (which aborts it).
`unboundG` is the ReferenceError raised by `startHand` when it
evaluates the out-of-scope identifier `g` (lines 575–578 of
`Game.tsx`). -/
inductive GameErr
  | phaseMismatch
  | outOfTurn
  | notDealer
  | screwTheDealer
  | forbiddenSuit
  | upcardMissing
  | trumpNotSet
  | cardNotInHand
  | alreadyPlayedThisTrick
  | mustFollowSuit
  | dealerMissing
  | dealerHandNot5
  | discardNotFound
  | resultingHandNot5
  | seatTaken
  | alreadySeated
  | needAllSeats
  | unboundG
deriving DecidableEq, Repr

/-- `claimSeat(seat)` by user `uid`: rejected if the seat is occupied or
the user already holds a seat; otherwise the seat is assigned. -/
def claimSeat (s : GState) (uid : String) (seat : Seat) : Except GameErr GState :=
  if (s.game.seats seat).isSome then Except.error GameErr.seatTaken
  else if SEATS.any fun x => s.game.seats x = some uid then
    Except.error GameErr.alreadySeated
  else Except.ok { s with game := { s.game with
    seats := fun x => if x = seat then some uid else s.game.seats x } }

/-- `startHand`: if any seat is open it rejects with a "need all 4
seats" message; otherwise it evaluates `g.score` where `g` is an
identifier that is bound nowhere in scope (`Game.tsx` lines 575–578 —
every other use of `g` lives inside a transaction callback), so the
JavaScript engine throws a ReferenceError before any write.  The
dealing logic further down (lines 583–646) is therefore unreachable; it
is embedded separately as `dealFromDeck` below. -/
def startHand (s : GState) : Except GameErr GState :=
  if ¬ SEATS.all fun seat => (s.game.seats seat).isSome then
    Except.error GameErr.needAllSeats
  else Except.error GameErr.unboundG

/-- `bidPassRound1`: guards phase and turn (checked both before and
inside the transaction against the same snapshot), appends the seat to
the passes list unless it is already there, and either advances the
turn or, once all 4 seats have passed, opens round 2 with the turn at
the seat left of the dealer. -/
def bidPassRound1 (s : GState) (mySeat : Seat) : Except GameErr GState :=
  if s.game.phase ≠ GamePhase.bidding_round_1 then Except.error GameErr.phaseMismatch
  else if s.game.turn ≠ mySeat then Except.error GameErr.outOfTurn
  else
    let passes := (s.game.bidding.map Bidding.passes).getD []
    let nextPasses := if mySeat ∈ passes then passes else passes ++ [mySeat]
    if 4 ≤ nextPasses.length then
      Except.ok { s with game := { s.game with
        phase := GamePhase.bidding_round_2,
        bidding := some ⟨2, [], none⟩,
        turn := nextSeat s.game.dealer } }
    else
      Except.ok { s with game := { s.game with
        bidding := some ⟨1, nextPasses, none⟩,
        turn := nextSeat s.game.turn } }

/-- `bidOrderUp`: guards phase, turn and the upcard; trump becomes the
upcard's suit, the actor becomes maker, phase moves to dealer_discard
and the turn to the dealer. -/
def bidOrderUp (s : GState) (mySeat : Seat) : Except GameErr GState :=
  if s.game.phase ≠ GamePhase.bidding_round_1 then Except.error GameErr.phaseMismatch
  else if s.game.turn ≠ mySeat then Except.error GameErr.outOfTurn
  else
    match s.game.upcard with
    | none => Except.error GameErr.upcardMissing
    | some up =>
      Except.ok { s with game := { s.game with
        status := Status.bidding,
        phase := GamePhase.dealer_discard,
        trump := some up.suit,
        makerSeat := some mySeat,
        bidding := some ⟨1, (s.game.bidding.map Bidding.passes).getD [], some mySeat⟩,
        turn := s.game.dealer } }

/-- `bidPassRound2`: guards phase and turn; a dealer pass is rejected
with the "Screw the dealer" message (both by the pre-check and again
inside the transaction) before anything is written.  A non-dealer pass
appends the seat (unless already present); once the passes reach 3 the
turn is forced to the dealer, otherwise it advances clockwise. -/
def bidPassRound2 (s : GState) (mySeat : Seat) : Except GameErr GState :=
  if s.game.phase ≠ GamePhase.bidding_round_2 then Except.error GameErr.phaseMismatch
  else if s.game.turn ≠ mySeat then Except.error GameErr.outOfTurn
  else if mySeat = s.game.dealer then Except.error GameErr.screwTheDealer
  else
    let passes := (s.game.bidding.map Bidding.passes).getD []
    let nextPasses := if mySeat ∈ passes then passes else passes ++ [mySeat]
    if 3 ≤ nextPasses.length then
      Except.ok { s with game := { s.game with
        bidding := some ⟨2, nextPasses, none⟩,
        turn := s.game.dealer } }
    else
      Except.ok { s with game := { s.game with
        bidding := some ⟨2, nextPasses, none⟩,
        turn := nextSeat s.game.turn } }

/-- `bidCallTrump(suit)`: guards phase, turn and the upcard, and rejects
the upcard's suit (pre-check `setErr` and in-transaction re-check); on
success trump is the chosen suit, the actor becomes maker, phase and
status move to playing and the turn to the seat left of the dealer. -/
def bidCallTrump (s : GState) (mySeat : Seat) (suit : Suit) : Except GameErr GState :=
  if s.game.phase ≠ GamePhase.bidding_round_2 then Except.error GameErr.phaseMismatch
  else if s.game.turn ≠ mySeat then Except.error GameErr.outOfTurn
  else
    match s.game.upcard with
    | none => Except.error GameErr.upcardMissing
    | some up =>
      if suit = up.suit then Except.error GameErr.forbiddenSuit
      else
        Except.ok { s with game := { s.game with
          status := Status.playing,
          phase := GamePhase.playing,
          trump := some suit,
          makerSeat := some mySeat,
          bidding := some ⟨2, (s.game.bidding.map Bidding.passes).getD [], none⟩,
          turn := nextSeat s.game.dealer } }

/-- `dealerPickupAndDiscard(discard)`: guards phase, that the actor is
the dealer, turn, the upcard, that the dealer's seat is occupied, that
the stored hand has exactly 5 cards and that the discard is one of the
6 combined cards (stored hand plus upcard); the post-condition re-check
that the resulting hand has 5 cards can then never fire.  On success
the dealer's hand becomes the remaining 5 cards, the discard is
appended to the kitty, status/phase move to playing and the turn to the
seat left of the dealer.  Note: `currentTrick` is not written. -/
def dealerPickupAndDiscard (s : GState) (mySeat : Seat) (discard : Card) :
    Except GameErr GState :=
  if s.game.phase ≠ GamePhase.dealer_discard then Except.error GameErr.phaseMismatch
  else if mySeat ≠ s.game.dealer then Except.error GameErr.notDealer
  else if s.game.turn ≠ s.game.dealer then Except.error GameErr.outOfTurn
  else
    match s.game.upcard with
    | none => Except.error GameErr.upcardMissing
    | some up =>
      if (s.game.seats s.game.dealer).isNone then Except.error GameErr.dealerMissing
      else
        let hand := s.hands s.game.dealer
        if hand.length ≠ 5 then Except.error GameErr.dealerHandNot5
        else
          let combined := hand ++ [up]
          if discard ∉ combined then Except.error GameErr.discardNotFound
          else
            let nextHand := removeOneCard combined discard
            if nextHand.length ≠ 5 then Except.error GameErr.resultingHandNot5
            else
              Except.ok
                { game := { s.game with
                    status := Status.playing,
                    phase := GamePhase.playing,
                    kitty := some ((s.game.kitty.getD []) ++ [discard]),
                    turn := nextSeat s.game.dealer },
                  hands := updateHands s.hands s.game.dealer nextHand }

/-- The tail of `playCard` from `removeOneCard` on (everything after the
follow-suit check): remove the card from the hand, append it to the
trick, and either record the trick as still open (advancing the turn
clockwise), resolve a completed non-final trick (the winner leads a
fresh trick), or — when the completed trick is the 5th — score the hand
(maker's team: 5 tricks → +2, 3 or 4 → +1, fewer → defenders +2), set
the win condition from `winningTeam`, and reset the per-hand state. -/
def continuePlay (s : GState) (mySeat : Seat) (code : Card) (trump : Suit)
    (hand : List Card) (existing : List (Seat × Card)) (leadSeat : Seat)
    (leadSuit : Option Suit) (trickNumber : Nat) : Except GameErr GState :=
  let nextHand := removeOneCard hand code
  let nextCards := existing ++ [(mySeat, code)]
  if nextCards.length = 4 then
    let winner := winnerOfTrick nextCards leadSeat trump leadSuit
    let prevTaken := s.game.tricksTaken.getD ⟨0, 0⟩
    let winTeam := teamKeyForSeat winner
    let nextTaken : Score :=
      ⟨prevTaken.NS + (if winTeam = TeamKey.NS then 1 else 0),
       prevTaken.EW + (if winTeam = TeamKey.EW then 1 else 0)⟩
    let nextWinners := (s.game.trickWinners.getD []) ++ [winner]
    if 5 ≤ trickNumber then
      let nextScore :=
        match s.game.makerSeat with
        | some m =>
          let makerTeam := teamKeyForSeat m
          let defenseTeam := otherTeam makerTeam
          let makerTricks := scoreGet nextTaken makerTeam
          if 5 ≤ makerTricks then scoreAdd s.game.score makerTeam 2
          else if 3 ≤ makerTricks then scoreAdd s.game.score makerTeam 1
          else scoreAdd s.game.score defenseTeam 2
        | none => s.game.score
      let matchWinner := winningTeam nextScore 10
      Except.ok
        { game := { s.game with
            tricksTaken := some nextTaken,
            trickWinners := some nextWinners,
            score := nextScore,
            status := if matchWinner.isSome then Status.finished else Status.lobby,
            winnerTeam := matchWinner,
            phase := GamePhase.lobby,
            currentTrick := none,
            upcard := none,
            kitty := none,
            trump := none,
            makerSeat := none,
            bidding := none },
          hands := updateHands s.hands mySeat nextHand }
    else
      Except.ok
        { game := { s.game with
            tricksTaken := some nextTaken,
            trickWinners := some nextWinners,
            currentTrick := some ⟨trickNumber + 1, winner, none, []⟩,
            turn := winner },
          hands := updateHands s.hands mySeat nextHand }
  else
    Except.ok
      { game := { s.game with
          currentTrick := some ⟨trickNumber, leadSeat, leadSuit, nextCards⟩,
          turn := nextSeat s.game.turn },
        hands := updateHands s.hands mySeat nextHand }

/-- `playCard(code)`: guards phase, turn, trump, card membership in the
acting seat's stored hand, and that the seat has not already played in
the current trick.  The source's `isNewTrick` test
(`!trick || Object.keys(existingCards).length === 0`) splits into the
first two cases of the match below (no trick object, defaulting the
trick number to 1, or a trick object with an empty cards map): the
actor leads and the card's effective suit becomes the lead suit.
Otherwise the seat must follow the stored lead suit when its hand
holds that effective suit. -/
def playCard (s : GState) (mySeat : Seat) (code : Card) : Except GameErr GState :=
  if s.game.phase ≠ GamePhase.playing then Except.error GameErr.phaseMismatch
  else if s.game.turn ≠ mySeat then Except.error GameErr.outOfTurn
  else
    match s.game.trump with
    | none => Except.error GameErr.trumpNotSet
    | some trump =>
      let hand := s.hands mySeat
      if code ∉ hand then Except.error GameErr.cardNotInHand
      else
        let existing := (s.game.currentTrick.map Trick.cards).getD []
        if (cardsGet existing mySeat).isSome then
          Except.error GameErr.alreadyPlayedThisTrick
        else
          match s.game.currentTrick with
          | none =>
            continuePlay s mySeat code trump hand [] mySeat
              (some (effectiveSuit code trump)) 1
          | some t =>
            if t.cards = [] then
              continuePlay s mySeat code trump hand [] mySeat
                (some (effectiveSuit code trump)) t.trickNumber
            else
              if hasSuitInHand hand t.leadSuit trump ∧
                  some (effectiveSuit code trump) ≠ t.leadSuit then
                Except.error GameErr.mustFollowSuit
              else
                continuePlay s mySeat code trump hand t.cards t.leadSeat
                  t.leadSuit t.trickNumber

/-!
### Deck construction and dealing

`createEuchreDeck` is from `deal.ts`; the dealing below is the logic of
`startHand` lines 583–646 (unreachable at runtime because of the
unbound `g` above, but it is the deal routine the spec describes):
`shuffle` is a Fisher–Yates permutation driven by `Math.random`, so it
is embedded by quantifying over an arbitrary permutation of the deck.
-/

/-- `createEuchreDeck`: ranks 9,T,J,Q,K,A in each of S,H,D,C (suit-major
order, as the nested loops produce it). -/
def createEuchreDeck : List Card :=
  SUITS.flatMap fun s => RANKS.map fun r => ⟨r, s⟩

/-- The deal order: 4 seats clockwise starting left of the dealer. -/
def dealOrder (dealer : Seat) : List Seat :=
  [nextSeat dealer, nextSeat (nextSeat dealer),
   nextSeat (nextSeat (nextSeat dealer)),
   nextSeat (nextSeat (nextSeat (nextSeat dealer)))]

/-- The hand of the seat at position `j` of the deal order: the dealing
loop pushes `deck[idx++]` for 5 rounds over the 4 seats, so that seat
receives the cards at indices `4*c + j` for `c = 0..4`. -/
def handAt (deck : List Card) (j : Nat) : List Card :=
  (List.range 5).filterMap fun c => deck.get? (c * 4 + j)

/-- The output of the dealing logic: per-seat hands, the 21st card as
upcard, the remaining 3 cards as kitty. -/
structure DealResult where
  hands : Seat → List Card
  upcard : Option Card
  kitty : List Card

/-- The dealing logic of `startHand` applied to an already-shuffled
deck. -/
def dealFromDeck (deck : List Card) (dealer : Seat) : DealResult :=
  { hands := fun seat => handAt deck ((dealOrder dealer).indexOf seat),
    upcard := deck.get? 20,
    kitty := deck.drop 21 }

/-!
### Initial state and the step relation
-/

/-- The game document created by `Home.tsx`: status lobby, creator in
seat N, dealer and turn N, score 0–0, hand number 1, every per-hand
field absent. -/
def initState (uid : String) : GState :=
  { game :=
      { status := Status.lobby, phase := GamePhase.lobby,
        seats := fun s => if s = Seat.N then some uid else none,
        dealer := Seat.N, turn := Seat.N, score := ⟨0, 0⟩, handNumber := 1,
        upcard := none, kitty := none, trump := none, makerSeat := none,
        bidding := none, currentTrick := none, tricksTaken := none,
        trickWinners := none, winnerTeam := none },
    hands := fun _ => [] }

/-- The mutating actions a client can submit. -/
inductive GAction
  | claim (uid : String) (seat : Seat)
  | start
  | passR1 (seat : Seat)
  | orderUp (seat : Seat)
  | passR2 (seat : Seat)
  | callTrump (seat : Seat) (suit : Suit)
  | discard (seat : Seat) (card : Card)
  | play (seat : Seat) (card : Card)

/-- Dispatch an action to its transition function. -/
def applyAction : GAction → GState → Except GameErr GState
  | GAction.claim uid seat, s => claimSeat s uid seat
  | GAction.start, s => startHand s
  | GAction.passR1 seat, s => bidPassRound1 s seat
  | GAction.orderUp seat, s => bidOrderUp s seat
  | GAction.passR2 seat, s => bidPassRound2 s seat
  | GAction.callTrump seat suit, s => bidCallTrump s seat suit
  | GAction.discard seat card, s => dealerPickupAndDiscard s seat card
  | GAction.play seat card, s => playCard s seat card

/-- One committed transition of the shared state. -/
def Step (s s' : GState) : Prop := ∃ a, applyAction a s = Except.ok s'

/-- States reachable from some freshly created game. -/
def Reachable (s : GState) : Prop :=
  ∃ uid, Relation.ReflTransGen Step (initState uid) s

/-!
### Concrete demonstration states used by the claim witnesses
-/

/-- A seats map with all four seats occupied. -/
def fullSeats : Seat → Option String
  | Seat.N => some "uidN"
  | Seat.E => some "uidE"
  | Seat.S => some "uidS"
  | Seat.W => some "uidW"

/-- A game document in bidding round 2 after the three non-dealer seats
passed: dealer N is on turn and "stuck". -/
def round2Doc : GameDoc :=
  { status := Status.bidding, phase := GamePhase.bidding_round_2,
    seats := fullSeats, dealer := Seat.N, turn := Seat.N,
    score := ⟨0, 0⟩, handNumber := 1,
    upcard := some ⟨Rank.RQ, Suit.C⟩,
    kitty := some [⟨Rank.R9, Suit.C⟩, ⟨Rank.RT, Suit.C⟩, ⟨Rank.RJ, Suit.C⟩],
    trump := none, makerSeat := none,
    bidding := some ⟨2, [Seat.E, Seat.S, Seat.W], none⟩,
    currentTrick := none, tricksTaken := some ⟨0, 0⟩,
    trickWinners := some [], winnerTeam := none }

/-- The round-2 document together with private hands. -/
def round2State : GState :=
  { game := round2Doc,
    hands := fun _ => [] }

/-- C1.  The claim's own determinism example — trump ♥, lead card A♠,
plays N=A♠, E=J♦ (left bower), S=9♥, W=10♠ — should make E the winner.
The code disagrees: `trickStrength` concatenates its numeric base with
the rank *character* (`150 + "9" = "1509"` …), so N's A♠ scores the
non-numeric string "100A" (`NaN`, loses every comparison), E's left
bower scores the number 199, and S's plain 9♥ scores "1509", which
`ToNumber`-coerces to 1509 and beats 199.  The code's winner is S, not
E, refuting the claimed bower-first ranking. -/
theorem c1_trick_winner_code_eval :
    winnerOfTrick
      [(Seat.N, ⟨Rank.RA, Suit.S⟩), (Seat.E, ⟨Rank.RJ, Suit.D⟩),
       (Seat.S, ⟨Rank.R9, Suit.H⟩), (Seat.W, ⟨Rank.RT, Suit.S⟩)]
      Seat.N Suit.H (some Suit.S) = Seat.S ∧ Seat.S ≠ Seat.E := by
  decide

/-- C3: in bidding round 2 with the three non-dealer seats in the passes
list and the turn at the dealer, a dealer pass is rejected with the
"screw the dealer" error and no state change (an `error` result commits
no write); it is not converted into any other action. -/
theorem c3_screw_the_dealer (s : GState) (b : Bidding)
    (hphase : s.game.phase = GamePhase.bidding_round_2)
    (hbid : s.game.bidding = some b) (hround : b.round = 2)
    (hpasses : ∀ x : Seat, x ∈ b.passes ↔ x ≠ s.game.dealer)
    (hturn : s.game.turn = s.game.dealer) :
    applyAction (GAction.passR2 s.game.dealer) s =
      Except.error GameErr.screwTheDealer := by
  simp [applyAction, bidPassRound2, hphase, hturn]

/-- C3 witness: the hypotheses of `c3_screw_the_dealer` hold in the
concrete `round2State` and the dealer's pass is rejected there. -/
theorem c3_witness :
    applyAction (GAction.passR2 round2State.game.dealer) round2State =
      Except.error GameErr.screwTheDealer :=
  c3_screw_the_dealer round2State ⟨2, [Seat.E, Seat.S, Seat.W], none⟩
    rfl rfl rfl (by decide) rfl

/-- C9: in bidding round 2 on one's turn, calling the upcard's suit is
rejected (no state change), while calling any other suit succeeds and
sets trump to the chosen suit, the maker to the actor, the phase to
playing and the turn to the seat left of the dealer. -/
theorem c9_round2_call (s : GState) (seat : Seat) (suit : Suit) (up : Card)
    (hphase : s.game.phase = GamePhase.bidding_round_2)
    (hturn : s.game.turn = seat)
    (hup : s.game.upcard = some up) :
    (suit = up.suit →
      applyAction (GAction.callTrump seat suit) s =
        Except.error GameErr.forbiddenSuit) ∧
    (suit ≠ up.suit →
      ∃ s', applyAction (GAction.callTrump seat suit) s = Except.ok s' ∧
        s'.game.trump = some suit ∧ s'.game.makerSeat = some seat ∧
        s'.game.phase = GamePhase.playing ∧
        s'.game.turn = nextSeat s.game.dealer) := by
  constructor
  · intro h
    simp [applyAction, bidCallTrump, hphase, hturn, hup, h]
  · intro h
    refine ⟨{ s with game := { s.game with
        status := Status.playing,
        phase := GamePhase.playing,
        trump := some suit,
        makerSeat := some seat,
        bidding := some ⟨2, (s.game.bidding.map Bidding.passes).getD [], none⟩,
        turn := nextSeat s.game.dealer } }, ?_, rfl, rfl, rfl, rfl⟩
    simp [applyAction, bidCallTrump, hphase, hturn, hup, h]

/-- C9 witness: in `round2State` (upcard Q♣) the call of ♣ is rejected
and the call of ♥ succeeds with the claimed effects. -/
theorem c9_witness :
    (Suit.C = Suit.C →
      applyAction (GAction.callTrump Seat.N Suit.C) round2State =
        Except.error GameErr.forbiddenSuit) ∧
    ((Suit.H = Suit.C → False) →
      ∃ s', applyAction (GAction.callTrump Seat.N Suit.H) round2State =
        Except.ok s' ∧
        s'.game.trump = some Suit.H ∧ s'.game.makerSeat = some Seat.N ∧
        s'.game.phase = GamePhase.playing ∧
        s'.game.turn = nextSeat round2State.game.dealer) :=
  ⟨(c9_round2_call round2State Seat.N Suit.C ⟨Rank.RQ, Suit.C⟩ rfl rfl rfl).1,
   fun h => (c9_round2_call round2State Seat.N Suit.H ⟨Rank.RQ, Suit.C⟩ rfl rfl rfl).2
     (by intro hx; exact h (by rw [hx]))⟩

/-- A lobby-state game with all four seats occupied and score 0–0: the
exact situation in which the claim says a new hand is dealt. -/
def lobbyFullState : GState :=
  { game :=
      { status := Status.lobby, phase := GamePhase.lobby,
        seats := fullSeats, dealer := Seat.N, turn := Seat.N,
        score := ⟨0, 0⟩, handNumber := 1, upcard := none, kitty := none,
        trump := none, makerSeat := none, bidding := none,
        currentTrick := none, tricksTaken := none, trickWinners := none,
        winnerTeam := none },
    hands := fun _ => [] }

/-- C8: `startHand` does reject when a seat is open, but with all 4
seats occupied and the match not terminal it *still* never deals:
after the all-seats check it evaluates `g.score` where `g` is unbound
(`Game.tsx` lines 575–578), so it throws a ReferenceError and commits
nothing — the hand number is never incremented and the dealer never
rotates, contradicting the claim's success case. -/
theorem c8_start_hand_crash :
    applyAction GAction.start lobbyFullState = Except.error GameErr.unboundG ∧
    applyAction GAction.start (initState "creator") =
      Except.error GameErr.needAllSeats ∧
    ∀ s' : GState, applyAction GAction.start lobbyFullState ≠ Except.ok s' := by
  refine ⟨rfl, rfl, fun s' h => ?_⟩
  rw [show applyAction GAction.start lobbyFullState =
      Except.error GameErr.unboundG from rfl] at h
  exact Except.noConfusion h

/-- Counts `removeOneCard` removing exactly one occurrence of a present
card. -/
theorem removeOneCard_length (hand : List Card) (code : Card) (h : code ∈ hand) :
    (removeOneCard hand code).length + 1 = hand.length := by
  induction hand with
  | nil => simp at h
  | cons c cs ih =>
    by_cases hc : c = code
    · simp [removeOneCard, hc]
    · have hmem : code ∈ cs := by
        rcases List.mem_cons.mp h with h1 | h1
        · exact absurd h1.symm hc
        · exact h1
      have := ih hmem
      simp only [removeOneCard, if_neg hc, List.length_cons]
      omega

/-- A dealer-discard state: trump ♠ was ordered up, dealer N holds 5
cards and must pick up the upcard J♠ and discard one of 6. -/
def discardState : GState :=
  { game :=
      { status := Status.bidding, phase := GamePhase.dealer_discard,
        seats := fullSeats, dealer := Seat.N, turn := Seat.N,
        score := ⟨0, 0⟩, handNumber := 1,
        upcard := some ⟨Rank.RJ, Suit.S⟩,
        kitty := some [⟨Rank.R9, Suit.C⟩, ⟨Rank.RT, Suit.C⟩, ⟨Rank.RQ, Suit.C⟩],
        trump := some Suit.S, makerSeat := some Seat.E,
        bidding := some ⟨1, [], some Seat.E⟩,
        currentTrick := none, tricksTaken := some ⟨0, 0⟩,
        trickWinners := some [], winnerTeam := none },
    hands := fun seat =>
      if seat = Seat.N then
        [⟨Rank.R9, Suit.S⟩, ⟨Rank.RT, Suit.S⟩, ⟨Rank.R9, Suit.H⟩,
         ⟨Rank.RT, Suit.H⟩, ⟨Rank.R9, Suit.D⟩]
      else [] }

/-- C6 counterexample: a fully valid dealer discard succeeds, but the
resulting state's `currentTrick` is `null` — `dealerPickupAndDiscard`
writes no trick record at all, so no trick state with `trickNumber = 1`
is initialized by this action (the first `playCard` of the hand later
defaults the missing trick to number 1). -/
theorem c6_counterexample :
    ∃ s', applyAction (GAction.discard Seat.N ⟨Rank.RJ, Suit.S⟩) discardState =
        Except.ok s' ∧
      s'.game.currentTrick = none ∧
      ∀ t : Trick, s'.game.currentTrick ≠ some t := by
  refine ⟨_, rfl, rfl, fun t ht => ?_⟩
  exact Option.noConfusion ht

/-- C6 (amended): the dealer-discard action, valid only for the dealer
during the dealer_discard phase with turn = dealer, requires the stored
hand to have exactly 5 cards and the discard to belong to the 6-card
set hand+upcard; on success the dealer's hand becomes the remaining 5
cards, the discard is appended to the kitty, phase becomes playing and
turn the seat left of the dealer — but no trick record is written:
`currentTrick` is left exactly as it was (`null` after a fresh deal;
the first card played then opens trick 1 with its player as lead
seat). -/
theorem c6_dealer_discard (s : GState) (up discard : Card)
    (hphase : s.game.phase = GamePhase.dealer_discard)
    (hturn : s.game.turn = s.game.dealer)
    (hup : s.game.upcard = some up)
    (hocc : (s.game.seats s.game.dealer).isSome) :
    ((s.hands s.game.dealer).length = 5 →
      discard ∈ s.hands s.game.dealer ++ [up] →
      ∃ s', applyAction (GAction.discard s.game.dealer discard) s =
          Except.ok s' ∧
        s'.hands s.game.dealer =
          removeOneCard (s.hands s.game.dealer ++ [up]) discard ∧
        (s'.hands s.game.dealer).length = 5 ∧
        s'.game.kitty = some ((s.game.kitty.getD []) ++ [discard]) ∧
        s'.game.phase = GamePhase.playing ∧
        s'.game.turn = nextSeat s.game.dealer ∧
        s'.game.currentTrick = s.game.currentTrick) ∧
    ((s.hands s.game.dealer).length ≠ 5 →
      applyAction (GAction.discard s.game.dealer discard) s =
        Except.error GameErr.dealerHandNot5) ∧
    ((s.hands s.game.dealer).length = 5 →
      discard ∉ s.hands s.game.dealer ++ [up] →
      applyAction (GAction.discard s.game.dealer discard) s =
        Except.error GameErr.discardNotFound) ∧
    (∀ seat, seat ≠ s.game.dealer →
      applyAction (GAction.discard seat discard) s =
        Except.error GameErr.notDealer) := by
  obtain ⟨u, hu⟩ := Option.isSome_iff_exists.mp hocc
  refine ⟨?_, ?_, ?_, ?_⟩
  · intro h5 hmem
    have hlen : (removeOneCard (s.hands s.game.dealer ++ [up]) discard).length + 1 =
        (s.hands s.game.dealer ++ [up]).length :=
      removeOneCard_length _ _ hmem
    have hlen5 : (removeOneCard (s.hands s.game.dealer ++ [up]) discard).length = 5 := by
      simp [h5] at hlen
      omega
    refine ⟨⟨{ s.game with
        status := Status.playing,
        phase := GamePhase.playing,
        kitty := some ((s.game.kitty.getD []) ++ [discard]),
        turn := nextSeat s.game.dealer },
      updateHands s.hands s.game.dealer
        (removeOneCard (s.hands s.game.dealer ++ [up]) discard)⟩,
      ?_, ?_, ?_, rfl, rfl, rfl, rfl⟩
    · simp [applyAction, dealerPickupAndDiscard, hphase, hturn, hup, hu, h5, hmem,
        hlen5]
    · simp [updateHands]
    · simp [updateHands, hlen5]
  · intro h5
    simp [applyAction, dealerPickupAndDiscard, hphase, hturn, hup, hu, h5]
  · intro h5 hmem
    simp [applyAction, dealerPickupAndDiscard, hphase, hturn, hup, hu, h5, hmem]
  · intro seat hseat
    simp [applyAction, dealerPickupAndDiscard, hphase, hturn, hseat]

/-- C6 witness: the hypotheses of `c6_dealer_discard` hold in
`discardState`, giving a concrete successful discard of 9♦ and the
concrete rejections. -/
theorem c6_witness :
    ((discardState.hands discardState.game.dealer).length = 5 →
      (⟨Rank.R9, Suit.D⟩ : Card) ∈
        discardState.hands discardState.game.dealer ++ [⟨Rank.RJ, Suit.S⟩] →
      ∃ s', applyAction (GAction.discard discardState.game.dealer
          ⟨Rank.R9, Suit.D⟩) discardState = Except.ok s' ∧
        s'.hands discardState.game.dealer =
          removeOneCard (discardState.hands discardState.game.dealer ++
            [⟨Rank.RJ, Suit.S⟩]) ⟨Rank.R9, Suit.D⟩ ∧
        (s'.hands discardState.game.dealer).length = 5 ∧
        s'.game.kitty = some ((discardState.game.kitty.getD []) ++
          [⟨Rank.R9, Suit.D⟩]) ∧
        s'.game.phase = GamePhase.playing ∧
        s'.game.turn = nextSeat discardState.game.dealer ∧
        s'.game.currentTrick = discardState.game.currentTrick) ∧
    ((discardState.hands discardState.game.dealer).length ≠ 5 →
      applyAction (GAction.discard discardState.game.dealer
        ⟨Rank.R9, Suit.D⟩) discardState = Except.error GameErr.dealerHandNot5) ∧
    ((discardState.hands discardState.game.dealer).length = 5 →
      (⟨Rank.R9, Suit.D⟩ : Card) ∉
        discardState.hands discardState.game.dealer ++ [⟨Rank.RJ, Suit.S⟩] →
      applyAction (GAction.discard discardState.game.dealer
        ⟨Rank.R9, Suit.D⟩) discardState = Except.error GameErr.discardNotFound) ∧
    (∀ seat, seat ≠ discardState.game.dealer →
      applyAction (GAction.discard seat ⟨Rank.R9, Suit.D⟩) discardState =
        Except.error GameErr.notDealer) :=
  c6_dealer_discard discardState ⟨Rank.RJ, Suit.S⟩ ⟨Rank.R9, Suit.D⟩
    rfl rfl rfl (by decide)

/-- Once the follow-suit check has passed, every branch of the rest of
`playCard` commits a write: `continuePlay` never rejects. -/
theorem continuePlay_ok (s : GState) (mySeat : Seat) (code : Card) (trump : Suit)
    (hand : List Card) (existing : List (Seat × Card)) (leadSeat : Seat)
    (leadSuit : Option Suit) (tn : Nat) :
    ∃ s', continuePlay s mySeat code trump hand existing leadSeat leadSuit tn =
      Except.ok s' := by
  unfold continuePlay
  dsimp only
  split_ifs <;> exact ⟨_, rfl⟩

/-- C2: legal-play enforcement for the seat on turn during the playing
phase, holding the card, not yet having played in the current trick:
* leading (empty trick): any held card is accepted and its effective
  suit becomes the trick's lead suit;
* not leading and the hand holds the lead effective suit: a card of a
  different effective suit is rejected with no state change
  (must-follow-suit), a card of the lead effective suit is accepted;
* not leading and no card of the lead effective suit in hand: any held
  card is accepted. -/
theorem c2_follow_suit (s : GState) (seat : Seat) (code : Card) (tr : Suit)
    (t : Trick)
    (hphase : s.game.phase = GamePhase.playing)
    (hturn : s.game.turn = seat)
    (htrump : s.game.trump = some tr)
    (htrick : s.game.currentTrick = some t)
    (hmem : code ∈ s.hands seat)
    (hnp : cardsGet t.cards seat = none) :
    (t.cards = [] →
      ∃ s', playCard s seat code = Except.ok s' ∧
        s'.game.currentTrick =
          some ⟨t.trickNumber, seat, some (effectiveSuit code tr),
            [(seat, code)]⟩) ∧
    (∀ ls, t.cards ≠ [] → t.leadSuit = some ls →
      hasSuitInHand (s.hands seat) (some ls) tr = true →
      effectiveSuit code tr ≠ ls →
      playCard s seat code = Except.error GameErr.mustFollowSuit) ∧
    (∀ ls, t.cards ≠ [] → t.leadSuit = some ls →
      effectiveSuit code tr = ls →
      ∃ s', playCard s seat code = Except.ok s') ∧
    (t.cards ≠ [] → hasSuitInHand (s.hands seat) t.leadSuit tr = false →
      ∃ s', playCard s seat code = Except.ok s') := by
  refine ⟨?_, ?_, ?_, ?_⟩
  · intro hempty
    refine ⟨⟨{ s.game with
        currentTrick := some ⟨t.trickNumber, seat, some (effectiveSuit code tr),
          [(seat, code)]⟩,
        turn := nextSeat s.game.turn },
      updateHands s.hands seat (removeOneCard (s.hands seat) code)⟩, ?_, rfl⟩
    simp [playCard, continuePlay, hphase, hturn, htrump, htrick, hmem, hnp, hempty,
      cardsGet]
  · intro ls hne hls hhas hneq
    simp [playCard, hphase, hturn, htrump, htrick, hmem, hnp, hne, hls, hhas, hneq]
  · intro ls hne hls heq
    have hne2 : ¬ (hasSuitInHand (s.hands seat) t.leadSuit tr = true ∧
        some (effectiveSuit code tr) ≠ t.leadSuit) := by
      rintro ⟨-, hx⟩
      exact hx (by rw [heq, hls])
    obtain ⟨s', hs'⟩ := continuePlay_ok s seat code tr (s.hands seat) t.cards
      t.leadSeat t.leadSuit t.trickNumber
    refine ⟨s', ?_⟩
    simp only [playCard, hphase, hturn, htrump, htrick]
    simp [hmem, hnp, hne, hne2, hs']
  · intro hne hhas
    have hne2 : ¬ (hasSuitInHand (s.hands seat) t.leadSuit tr = true ∧
        some (effectiveSuit code tr) ≠ t.leadSuit) := by
      rintro ⟨hx, -⟩
      rw [hhas] at hx
      exact Bool.noConfusion hx
    obtain ⟨s', hs'⟩ := continuePlay_ok s seat code tr (s.hands seat) t.cards
      t.leadSeat t.leadSuit t.trickNumber
    refine ⟨s', ?_⟩
    simp only [playCard, hphase, hturn, htrump, htrick]
    simp [hmem, hnp, hne, hne2, hs']

/-- A mid-trick playing state: trump ♥, E led 10♠ (lead suit ♠), S is
on turn holding A♠ and 9♥. -/
def midTrickState : GState :=
  { game :=
      { status := Status.playing, phase := GamePhase.playing,
        seats := fullSeats, dealer := Seat.N, turn := Seat.S,
        score := ⟨0, 0⟩, handNumber := 1,
        upcard := none,
        kitty := some [⟨Rank.R9, Suit.C⟩, ⟨Rank.RT, Suit.C⟩, ⟨Rank.RQ, Suit.C⟩],
        trump := some Suit.H, makerSeat := some Seat.E,
        bidding := some ⟨2, [], none⟩,
        currentTrick := some ⟨1, Seat.E, some Suit.S,
          [(Seat.E, ⟨Rank.RT, Suit.S⟩)]⟩,
        tricksTaken := some ⟨0, 0⟩, trickWinners := some [],
        winnerTeam := none },
    hands := fun seat =>
      if seat = Seat.S then [⟨Rank.RA, Suit.S⟩, ⟨Rank.R9, Suit.H⟩] else [] }

/-- C2 witness: the hypotheses of `c2_follow_suit` hold in
`midTrickState` for S attempting to play the off-suit 9♥ while holding
A♠ of the lead suit. -/
theorem c2_witness :
    (([(Seat.E, (⟨Rank.RT, Suit.S⟩ : Card))] : List (Seat × Card)) = [] →
      ∃ s', playCard midTrickState Seat.S ⟨Rank.R9, Suit.H⟩ = Except.ok s' ∧
        s'.game.currentTrick =
          some ⟨1, Seat.S, some (effectiveSuit ⟨Rank.R9, Suit.H⟩ Suit.H),
            [(Seat.S, ⟨Rank.R9, Suit.H⟩)]⟩) ∧
    (∀ ls, ([(Seat.E, (⟨Rank.RT, Suit.S⟩ : Card))] : List (Seat × Card)) ≠ [] →
      (some Suit.S : Option Suit) = some ls →
      hasSuitInHand (midTrickState.hands Seat.S) (some ls) Suit.H = true →
      effectiveSuit ⟨Rank.R9, Suit.H⟩ Suit.H ≠ ls →
      playCard midTrickState Seat.S ⟨Rank.R9, Suit.H⟩ =
        Except.error GameErr.mustFollowSuit) ∧
    (∀ ls, ([(Seat.E, (⟨Rank.RT, Suit.S⟩ : Card))] : List (Seat × Card)) ≠ [] →
      (some Suit.S : Option Suit) = some ls →
      effectiveSuit ⟨Rank.R9, Suit.H⟩ Suit.H = ls →
      ∃ s', playCard midTrickState Seat.S ⟨Rank.R9, Suit.H⟩ = Except.ok s') ∧
    (([(Seat.E, (⟨Rank.RT, Suit.S⟩ : Card))] : List (Seat × Card)) ≠ [] →
      hasSuitInHand (midTrickState.hands Seat.S) (some Suit.S) Suit.H = false →
      ∃ s', playCard midTrickState Seat.S ⟨Rank.R9, Suit.H⟩ = Except.ok s') :=
  c2_follow_suit midTrickState Seat.S ⟨Rank.R9, Suit.H⟩ Suit.H
    ⟨1, Seat.E, some Suit.S, [(Seat.E, ⟨Rank.RT, Suit.S⟩)]⟩
    rfl rfl rfl rfl (by decide) rfl

/-- Adding to a team's score changes that team's component by `n`. -/
theorem scoreGet_scoreAdd_same (sc : Score) (team : TeamKey) (n : Nat) :
    scoreGet (scoreAdd sc team n) team = scoreGet sc team + n := by
  cases team <;> rfl

/-- Adding to a team's score leaves the other team's component alone. -/
theorem scoreGet_scoreAdd_other (sc : Score) (team : TeamKey) (n : Nat) :
    scoreGet (scoreAdd sc team n) (otherTeam team) =
      scoreGet sc (otherTeam team) := by
  cases team <;> rfl

/-- `otherTeam` is an involution. -/
theorem otherTeam_otherTeam (team : TeamKey) : otherTeam (otherTeam team) = team := by
  cases team <;> rfl

/-- The resolution of a completed 5th trick inside `continuePlay`: with
a maker seat present, the resulting state records the updated trick
counts and the score updated by exactly the hand-scoring rule. -/
theorem continuePlay_score (s : GState) (mySeat : Seat) (code : Card) (trump : Suit)
    (hand : List Card) (existing : List (Seat × Card)) (leadSeat : Seat)
    (leadSuit : Option Suit) (tn : Nat) (m : Seat)
    (h4 : (existing ++ [(mySeat, code)]).length = 4) (h5 : 5 ≤ tn)
    (hm : s.game.makerSeat = some m) :
    ∃ s', continuePlay s mySeat code trump hand existing leadSeat leadSuit tn =
        Except.ok s' ∧
      (let winner := winnerOfTrick (existing ++ [(mySeat, code)]) leadSeat trump
        leadSuit
       let taken := s.game.tricksTaken.getD ⟨0, 0⟩
       let taken' : Score :=
         ⟨taken.NS + (if teamKeyForSeat winner = TeamKey.NS then 1 else 0),
          taken.EW + (if teamKeyForSeat winner = TeamKey.EW then 1 else 0)⟩
       let mt := teamKeyForSeat m
       s'.game.tricksTaken = some taken' ∧
       s'.game.score =
         (if 5 ≤ scoreGet taken' mt then scoreAdd s.game.score mt 2
          else if 3 ≤ scoreGet taken' mt then scoreAdd s.game.score mt 1
          else scoreAdd s.game.score (otherTeam mt) 2)) := by
  unfold continuePlay
  dsimp only
  rw [if_pos h4, if_pos h5, hm]
  exact ⟨_, rfl, rfl, rfl⟩

/-- C4: when the 5th trick completes (4th card played on trick number
5) with a maker seat set, exactly one score update is applied: +2 to
the maker's team on 5 tricks taken, +1 on 3 or 4, otherwise +2 to the
defending team; in each case the other team's score is unchanged.  The
trick counts used are the ones the code records, including this final
trick's winner. -/
theorem c4_hand_scoring (s : GState) (seat : Seat) (code : Card) (tr : Suit)
    (t : Trick) (m : Seat) (ls : Suit)
    (hphase : s.game.phase = GamePhase.playing)
    (hturn : s.game.turn = seat)
    (htrump : s.game.trump = some tr)
    (htrick : s.game.currentTrick = some t)
    (htn : t.trickNumber = 5)
    (hc3 : t.cards.length = 3)
    (hlead : t.leadSuit = some ls)
    (hmem : code ∈ s.hands seat)
    (hnp : cardsGet t.cards seat = none)
    (hmaker : s.game.makerSeat = some m)
    (hfollow : hasSuitInHand (s.hands seat) (some ls) tr = true →
      effectiveSuit code tr = ls) :
    ∃ s', playCard s seat code = Except.ok s' ∧
      (let winner := winnerOfTrick (t.cards ++ [(seat, code)]) t.leadSeat tr
        t.leadSuit
       let taken := s.game.tricksTaken.getD ⟨0, 0⟩
       let taken' : Score :=
         ⟨taken.NS + (if teamKeyForSeat winner = TeamKey.NS then 1 else 0),
          taken.EW + (if teamKeyForSeat winner = TeamKey.EW then 1 else 0)⟩
       let mt := teamKeyForSeat m
       let dt := otherTeam mt
       s'.game.tricksTaken = some taken' ∧
       (5 ≤ scoreGet taken' mt →
          scoreGet s'.game.score mt = scoreGet s.game.score mt + 2 ∧
          scoreGet s'.game.score dt = scoreGet s.game.score dt) ∧
       (3 ≤ scoreGet taken' mt → ¬ 5 ≤ scoreGet taken' mt →
          scoreGet s'.game.score mt = scoreGet s.game.score mt + 1 ∧
          scoreGet s'.game.score dt = scoreGet s.game.score dt) ∧
       (¬ 3 ≤ scoreGet taken' mt →
          scoreGet s'.game.score dt = scoreGet s.game.score dt + 2 ∧
          scoreGet s'.game.score mt = scoreGet s.game.score mt)) := by
  have hne : t.cards ≠ [] := by
    intro hx
    rw [hx] at hc3
    simp at hc3
  have hne2 : ¬ (hasSuitInHand (s.hands seat) t.leadSuit tr = true ∧
      some (effectiveSuit code tr) ≠ t.leadSuit) := by
    rintro ⟨hx, hy⟩
    rw [hlead] at hx hy
    exact hy (by rw [hfollow hx])
  have h4 : (t.cards ++ [(seat, code)]).length = 4 := by
    simp [hc3]
  have h5 : 5 ≤ t.trickNumber := by omega
  obtain ⟨s', hs', htaken, hscore⟩ := continuePlay_score s seat code tr
    (s.hands seat) t.cards t.leadSeat t.leadSuit t.trickNumber m h4 h5 hmaker
  refine ⟨s', ?_, htaken, ?_, ?_, ?_⟩
  · simp only [playCard, hphase, hturn, htrump, htrick]
    simp [hmem, hnp, hne, hne2, hs']
  · intro hge5
    rw [hscore, if_pos hge5]
    exact ⟨scoreGet_scoreAdd_same _ _ _, scoreGet_scoreAdd_other _ _ _⟩
  · intro hge3 hlt5
    rw [hscore, if_neg hlt5, if_pos hge3]
    exact ⟨scoreGet_scoreAdd_same _ _ _, scoreGet_scoreAdd_other _ _ _⟩
  · intro hlt3
    have hlt5 : ¬ 5 ≤ scoreGet
        ⟨(s.game.tricksTaken.getD ⟨0, 0⟩).NS +
          (if teamKeyForSeat (winnerOfTrick (t.cards ++ [(seat, code)])
            t.leadSeat tr t.leadSuit) = TeamKey.NS then 1 else 0),
         (s.game.tricksTaken.getD ⟨0, 0⟩).EW +
          (if teamKeyForSeat (winnerOfTrick (t.cards ++ [(seat, code)])
            t.leadSeat tr t.leadSuit) = TeamKey.EW then 1 else 0)⟩
        (teamKeyForSeat m) := by omega
    rw [hscore, if_neg hlt5, if_neg hlt3]
    constructor
    · have h1 := scoreGet_scoreAdd_same s.game.score (otherTeam (teamKeyForSeat m)) 2
      exact h1
    · have h2 := scoreGet_scoreAdd_other s.game.score (otherTeam (teamKeyForSeat m)) 2
      rw [otherTeam_otherTeam] at h2
      exact h2

/-- A 5th-trick state: trump ♥, maker E, tricks split 2–2, E led 10♠
and S, W followed; N is on turn holding only K♠. -/
def trick5State : GState :=
  { game :=
      { status := Status.playing, phase := GamePhase.playing,
        seats := fullSeats, dealer := Seat.N, turn := Seat.N,
        score := ⟨0, 0⟩, handNumber := 1,
        upcard := none,
        kitty := some [⟨Rank.R9, Suit.C⟩, ⟨Rank.RT, Suit.C⟩, ⟨Rank.RQ, Suit.C⟩],
        trump := some Suit.H, makerSeat := some Seat.E,
        bidding := some ⟨2, [], none⟩,
        currentTrick := some ⟨5, Seat.E, some Suit.S,
          [(Seat.E, ⟨Rank.RT, Suit.S⟩), (Seat.S, ⟨Rank.RA, Suit.S⟩),
           (Seat.W, ⟨Rank.R9, Suit.S⟩)]⟩,
        tricksTaken := some ⟨2, 2⟩, trickWinners := some [],
        winnerTeam := none },
    hands := fun seat => if seat = Seat.N then [⟨Rank.RK, Suit.S⟩] else [] }

/-- C4 witness: `c4_hand_scoring` applied to `trick5State`: N's K♠
completes the 5th trick and wins it (all four cards follow the lead
suit, and under the code's string comparisons K♠ beats the others), so
the maker team EW finishes with 2 tricks: euchred, defenders NS gain 2
and EW's score is unchanged. -/
theorem c4_witness :
    ∃ s', playCard trick5State Seat.N ⟨Rank.RK, Suit.S⟩ = Except.ok s' ∧
      s'.game.tricksTaken = some ⟨3, 2⟩ ∧
      scoreGet s'.game.score TeamKey.NS =
        scoreGet trick5State.game.score TeamKey.NS + 2 ∧
      scoreGet s'.game.score TeamKey.EW =
        scoreGet trick5State.game.score TeamKey.EW := by
  obtain ⟨s', hok, htaken, h5, h34, hlt⟩ :=
    c4_hand_scoring trick5State Seat.N ⟨Rank.RK, Suit.S⟩ Suit.H
      ⟨5, Seat.E, some Suit.S,
        [(Seat.E, ⟨Rank.RT, Suit.S⟩), (Seat.S, ⟨Rank.RA, Suit.S⟩),
         (Seat.W, ⟨Rank.R9, Suit.S⟩)]⟩
      Seat.E Suit.S rfl rfl rfl rfl rfl rfl rfl (by decide) rfl rfl (by decide)
  obtain ⟨hdt, hmt⟩ := hlt (by decide)
  exact ⟨s', hok, htaken, hdt, hmt⟩

/-- The concatenation of the four dealt hands (every 4th card), the
upcard (21st card) and the kitty (last 3) is a permutation of the
24-card deck it was dealt from. -/
theorem dealt_perm (c0 c1 c2 c3 c4 c5 c6 c7 c8 c9 c10 c11 c12 c13 c14 c15 c16 c17 c18 c19 c20 c21 c22 c23 : Card) :
    ([c0, c4, c8, c12, c16] ++ [c1, c5, c9, c13, c17] ++ [c2, c6, c10, c14, c18] ++ [c3, c7, c11, c15, c19] ++ c20 :: [c21, c22, c23]).Perm
      [c0, c1, c2, c3, c4, c5, c6, c7, c8, c9, c10, c11, c12, c13, c14, c15, c16, c17, c18, c19, c20, c21, c22, c23] := by
  rw [List.perm_iff_count]
  intro x
  simp [List.count_cons, List.count_append]
  ring


/-- C5: for every starting deal — an arbitrary shuffle (permutation) of
`createEuchreDeck` — the constructed deck has exactly 24 distinct
cards; dealing one card per seat for 5 rounds starting left of the
dealer makes the 21st card the upcard and the last 3 the kitty, and the
four 5-card hands, the upcard and the kitty are pairwise disjoint (the
concatenation has no duplicates) with union the full deck (the
concatenation is a permutation of it). -/
theorem c5_deal_partition (deck : List Card) (dealer : Seat)
    (hperm : deck.Perm createEuchreDeck) :
    createEuchreDeck.length = 24 ∧ createEuchreDeck.Nodup ∧
    ∃ up, (dealFromDeck deck dealer).upcard = some up ∧
      (∀ seat, ((dealFromDeck deck dealer).hands seat).length = 5) ∧
      (dealFromDeck deck dealer).kitty.length = 3 ∧
      ((dealFromDeck deck dealer).hands (nextSeat dealer) ++
       (dealFromDeck deck dealer).hands (nextSeat (nextSeat dealer)) ++
       (dealFromDeck deck dealer).hands (nextSeat (nextSeat (nextSeat dealer))) ++
       (dealFromDeck deck dealer).hands dealer ++
       up :: (dealFromDeck deck dealer).kitty).Nodup ∧
      ((dealFromDeck deck dealer).hands (nextSeat dealer) ++
       (dealFromDeck deck dealer).hands (nextSeat (nextSeat dealer)) ++
       (dealFromDeck deck dealer).hands (nextSeat (nextSeat (nextSeat dealer))) ++
       (dealFromDeck deck dealer).hands dealer ++
       up :: (dealFromDeck deck dealer).kitty).Perm createEuchreDeck := by
  have hlen : deck.length = 24 := by rw [hperm.length_eq]; rfl
  refine ⟨rfl, by decide, ?_⟩
  rcases deck with _ | ⟨c0, deck⟩
  · simp only [List.length_cons, List.length_nil] at hlen; omega
  rcases deck with _ | ⟨c1, deck⟩
  · simp only [List.length_cons, List.length_nil] at hlen; omega
  rcases deck with _ | ⟨c2, deck⟩
  · simp only [List.length_cons, List.length_nil] at hlen; omega
  rcases deck with _ | ⟨c3, deck⟩
  · simp only [List.length_cons, List.length_nil] at hlen; omega
  rcases deck with _ | ⟨c4, deck⟩
  · simp only [List.length_cons, List.length_nil] at hlen; omega
  rcases deck with _ | ⟨c5, deck⟩
  · simp only [List.length_cons, List.length_nil] at hlen; omega
  rcases deck with _ | ⟨c6, deck⟩
  · simp only [List.length_cons, List.length_nil] at hlen; omega
  rcases deck with _ | ⟨c7, deck⟩
  · simp only [List.length_cons, List.length_nil] at hlen; omega
  rcases deck with _ | ⟨c8, deck⟩
  · simp only [List.length_cons, List.length_nil] at hlen; omega
  rcases deck with _ | ⟨c9, deck⟩
  · simp only [List.length_cons, List.length_nil] at hlen; omega
  rcases deck with _ | ⟨c10, deck⟩
  · simp only [List.length_cons, List.length_nil] at hlen; omega
  rcases deck with _ | ⟨c11, deck⟩
  · simp only [List.length_cons, List.length_nil] at hlen; omega
  rcases deck with _ | ⟨c12, deck⟩
  · simp only [List.length_cons, List.length_nil] at hlen; omega
  rcases deck with _ | ⟨c13, deck⟩
  · simp only [List.length_cons, List.length_nil] at hlen; omega
  rcases deck with _ | ⟨c14, deck⟩
  · simp only [List.length_cons, List.length_nil] at hlen; omega
  rcases deck with _ | ⟨c15, deck⟩
  · simp only [List.length_cons, List.length_nil] at hlen; omega
  rcases deck with _ | ⟨c16, deck⟩
  · simp only [List.length_cons, List.length_nil] at hlen; omega
  rcases deck with _ | ⟨c17, deck⟩
  · simp only [List.length_cons, List.length_nil] at hlen; omega
  rcases deck with _ | ⟨c18, deck⟩
  · simp only [List.length_cons, List.length_nil] at hlen; omega
  rcases deck with _ | ⟨c19, deck⟩
  · simp only [List.length_cons, List.length_nil] at hlen; omega
  rcases deck with _ | ⟨c20, deck⟩
  · simp only [List.length_cons, List.length_nil] at hlen; omega
  rcases deck with _ | ⟨c21, deck⟩
  · simp only [List.length_cons, List.length_nil] at hlen; omega
  rcases deck with _ | ⟨c22, deck⟩
  · simp only [List.length_cons, List.length_nil] at hlen; omega
  rcases deck with _ | ⟨c23, deck⟩
  · simp only [List.length_cons, List.length_nil] at hlen; omega
  rcases deck with _ | ⟨c24, deck⟩
  swap
  · simp only [List.length_cons, List.length_nil] at hlen; omega
  refine ⟨c20, rfl, fun seat => by cases dealer <;> cases seat <;> rfl, rfl, ?_, ?_⟩
  · cases dealer <;>
      exact ((dealt_perm c0 c1 c2 c3 c4 c5 c6 c7 c8 c9 c10 c11 c12 c13 c14 c15 c16 c17 c18 c19 c20 c21 c22 c23).trans hperm).nodup_iff.mpr (by decide)
  · cases dealer <;> exact (dealt_perm c0 c1 c2 c3 c4 c5 c6 c7 c8 c9 c10 c11 c12 c13 c14 c15 c16 c17 c18 c19 c20 c21 c22 c23).trans hperm


/-- C5 witness: `c5_deal_partition` applied to the unshuffled deck
(`List.Perm.refl`) with dealer N. -/
theorem c5_witness :
    createEuchreDeck.length = 24 ∧ createEuchreDeck.Nodup ∧
    ∃ up, (dealFromDeck createEuchreDeck Seat.N).upcard = some up ∧
      (∀ seat, ((dealFromDeck createEuchreDeck Seat.N).hands seat).length = 5) ∧
      (dealFromDeck createEuchreDeck Seat.N).kitty.length = 3 ∧
      ((dealFromDeck createEuchreDeck Seat.N).hands (nextSeat Seat.N) ++
       (dealFromDeck createEuchreDeck Seat.N).hands (nextSeat (nextSeat Seat.N)) ++
       (dealFromDeck createEuchreDeck Seat.N).hands
         (nextSeat (nextSeat (nextSeat Seat.N))) ++
       (dealFromDeck createEuchreDeck Seat.N).hands Seat.N ++
       up :: (dealFromDeck createEuchreDeck Seat.N).kitty).Nodup ∧
      ((dealFromDeck createEuchreDeck Seat.N).hands (nextSeat Seat.N) ++
       (dealFromDeck createEuchreDeck Seat.N).hands (nextSeat (nextSeat Seat.N)) ++
       (dealFromDeck createEuchreDeck Seat.N).hands
         (nextSeat (nextSeat (nextSeat Seat.N))) ++
       (dealFromDeck createEuchreDeck Seat.N).hands Seat.N ++
       up :: (dealFromDeck createEuchreDeck Seat.N).kitty).Perm createEuchreDeck :=
  c5_deal_partition createEuchreDeck Seat.N (List.Perm.refl createEuchreDeck)

/-!
### Reachability invariants (C7, C10)

`GInv` is the inductive invariant: the finished flag holds exactly when
a team's score has reached 10, a finished match sits in the lobby phase
(so no bidding/discard/play guard can pass), and the bidding passes
list never holds a seat twice.
-/

/-- The inductive invariant preserved by every committed action. -/
def GInv (s : GState) : Prop :=
  (s.game.status = Status.finished ↔
    10 ≤ s.game.score.NS ∨ 10 ≤ s.game.score.EW) ∧
  (s.game.status = Status.finished → s.game.phase = GamePhase.lobby) ∧
  (∀ b, s.game.bidding = some b → b.passes.Nodup)

/-- `winningTeam` returns a team exactly when a score reached the
target. -/
theorem winningTeam_isSome_iff (sc : Score) :
    (winningTeam sc 10).isSome = true ↔ 10 ≤ sc.NS ∨ 10 ≤ sc.EW := by
  unfold winningTeam
  split_ifs with h1 h2
  · simp [h1]
  · simp [h1, h2]
  · simp [h1, h2]

/-- The status written at hand end is `finished` iff a score reached
10. -/
theorem statusIte_iff (sc : Score) :
    ((if (winningTeam sc 10).isSome then Status.finished else Status.lobby) =
      Status.finished) ↔ 10 ≤ sc.NS ∨ 10 ≤ sc.EW := by
  by_cases hor : 10 ≤ sc.NS ∨ 10 ≤ sc.EW
  · simp [(winningTeam_isSome_iff sc).mpr hor, hor]
  · have hw : ¬ (winningTeam sc 10).isSome = true :=
      fun hx => hor ((winningTeam_isSome_iff sc).mp hx)
    simp [hw, hor]

/-- `scoreAdd` never decreases either component. -/
theorem scoreAdd_mono (sc : Score) (team : TeamKey) (n : Nat) :
    sc.NS ≤ (scoreAdd sc team n).NS ∧ sc.EW ≤ (scoreAdd sc team n).EW := by
  cases team <;> simp [scoreAdd]

/-- The passes list read out of the bidding record is duplicate-free
under the invariant. -/
theorem passesBase_nodup (s : GState) (hi : GInv s) :
    ((s.game.bidding.map Bidding.passes).getD []).Nodup := by
  rcases hb : s.game.bidding with _ | b
  · simp
  · simpa using hi.2.2 b hb

/-- Appending the acting seat only when absent keeps the list
duplicate-free. -/
theorem nextPasses_nodup (passes : List Seat) (seat : Seat)
    (h : passes.Nodup) :
    (if seat ∈ passes then passes else passes ++ [seat]).Nodup := by
  by_cases hmem : seat ∈ passes
  · simpa [hmem] using h
  · simp [hmem, List.nodup_append, h]

/-- `continuePlay` preserves the invariant and never decreases either
score. -/
theorem continuePlay_preserves (s : GState) (mySeat : Seat) (code : Card)
    (trump : Suit) (hand : List Card) (existing : List (Seat × Card))
    (leadSeat : Seat) (leadSuit : Option Suit) (tn : Nat) (s' : GState)
    (h : continuePlay s mySeat code trump hand existing leadSeat leadSuit tn =
      Except.ok s')
    (hi : GInv s) :
    GInv s' ∧ s.game.score.NS ≤ s'.game.score.NS ∧
      s.game.score.EW ≤ s'.game.score.EW := by
  unfold continuePlay at h
  dsimp only at h
  by_cases h4 : (existing ++ [(mySeat, code)]).length = 4
  · rw [if_pos h4] at h
    by_cases h5 : 5 ≤ tn
    · -- 5th trick resolves: score and win condition written
      rw [if_pos h5] at h
      injection h with h
      subst h
      refine ⟨⟨statusIte_iff _, fun _ => rfl, fun b hb => Option.noConfusion hb⟩,
        ?_, ?_⟩
      · rcases s.game.makerSeat with _ | m
        · exact Nat.le_refl _
        · dsimp only
          split_ifs <;> exact (scoreAdd_mono _ _ _).1
      · rcases s.game.makerSeat with _ | m
        · exact Nat.le_refl _
        · dsimp only
          split_ifs <;> exact (scoreAdd_mono _ _ _).2
    · -- trick resolves, hand continues: shared fields untouched
      rw [if_neg h5] at h
      injection h with h
      subst h
      exact ⟨⟨hi.1, hi.2.1, hi.2.2⟩, Nat.le_refl _, Nat.le_refl _⟩
  · -- trick still open: shared fields untouched
    rw [if_neg h4] at h
    injection h with h
    subst h
    exact ⟨⟨hi.1, hi.2.1, hi.2.2⟩, Nat.le_refl _, Nat.le_refl _⟩

/-- `playCard` preserves the invariant and never decreases either
score. -/
theorem playCard_preserves (s : GState) (seat : Seat) (code : Card) (s' : GState)
    (h : playCard s seat code = Except.ok s') (hi : GInv s) :
    GInv s' ∧ s.game.score.NS ≤ s'.game.score.NS ∧
      s.game.score.EW ≤ s'.game.score.EW := by
  unfold playCard at h
  by_cases h1 : s.game.phase ≠ GamePhase.playing
  · rw [if_pos h1] at h; exact Except.noConfusion h
  rw [if_neg h1] at h
  by_cases h2 : s.game.turn ≠ seat
  · rw [if_pos h2] at h; exact Except.noConfusion h
  rw [if_neg h2] at h
  rcases htr : s.game.trump with _ | trump
  · rw [htr] at h; exact Except.noConfusion h
  rw [htr] at h
  dsimp only at h
  by_cases h3 : code ∉ s.hands seat
  · rw [if_pos h3] at h; exact Except.noConfusion h
  rw [if_neg h3] at h
  by_cases h4 : (cardsGet ((s.game.currentTrick.map Trick.cards).getD []) seat).isSome
      = true
  · rw [if_pos h4] at h; exact Except.noConfusion h
  rw [if_neg h4] at h
  rcases hct : s.game.currentTrick with _ | t
  · rw [hct] at h
    dsimp only at h
    exact continuePlay_preserves s seat code trump (s.hands seat) [] seat
      (some (effectiveSuit code trump)) 1 s' h hi
  rw [hct] at h
  dsimp only at h
  by_cases h6 : t.cards = []
  · rw [if_pos h6] at h
    exact continuePlay_preserves s seat code trump (s.hands seat) [] seat
      (some (effectiveSuit code trump)) t.trickNumber s' h hi
  rw [if_neg h6] at h
  by_cases h7 : hasSuitInHand (s.hands seat) t.leadSuit trump = true ∧
      some (effectiveSuit code trump) ≠ t.leadSuit
  · rw [if_pos h7] at h; exact Except.noConfusion h
  rw [if_neg h7] at h
  exact continuePlay_preserves s seat code trump (s.hands seat) t.cards t.leadSeat
    t.leadSuit t.trickNumber s' h hi

/-- Every committed step preserves the invariant and never decreases
either score. -/
theorem step_preserves (s s' : GState) (hstep : Step s s') (hi : GInv s) :
    GInv s' ∧ s.game.score.NS ≤ s'.game.score.NS ∧
      s.game.score.EW ≤ s'.game.score.EW := by
  obtain ⟨a, ha⟩ := hstep
  cases a with
  | claim uid seat =>
    simp only [applyAction] at ha
    unfold claimSeat at ha
    by_cases h1 : (s.game.seats seat).isSome = true
    · rw [if_pos h1] at ha; exact Except.noConfusion ha
    rw [if_neg h1] at ha
    by_cases h2 : (SEATS.any fun x => s.game.seats x = some uid) = true
    · rw [if_pos h2] at ha; exact Except.noConfusion ha
    rw [if_neg h2] at ha
    injection ha with ha
    subst ha
    exact ⟨⟨hi.1, hi.2.1, hi.2.2⟩, Nat.le_refl _, Nat.le_refl _⟩
  | start =>
    simp only [applyAction] at ha
    unfold startHand at ha
    split_ifs at ha
  | passR1 seat =>
    simp only [applyAction] at ha
    unfold bidPassRound1 at ha
    by_cases h1 : s.game.phase ≠ GamePhase.bidding_round_1
    · rw [if_pos h1] at ha; exact Except.noConfusion ha
    rw [if_neg h1] at ha
    by_cases h2 : s.game.turn ≠ seat
    · rw [if_pos h2] at ha; exact Except.noConfusion ha
    rw [if_neg h2] at ha
    dsimp only at ha
    have hph : s.game.phase = GamePhase.bidding_round_1 := not_not.mp h1
    have hnf : s.game.status ≠ Status.finished := by
      intro hf
      have hlob := hi.2.1 hf
      rw [hph] at hlob
      exact GamePhase.noConfusion hlob
    have hbase := passesBase_nodup s hi
    by_cases h3 : 4 ≤ (if seat ∈ (s.game.bidding.map Bidding.passes).getD []
        then (s.game.bidding.map Bidding.passes).getD []
        else (s.game.bidding.map Bidding.passes).getD [] ++ [seat]).length
    · rw [if_pos h3] at ha
      injection ha with ha
      subst ha
      refine ⟨⟨hi.1, fun hf => absurd hf hnf, fun b hb => ?_⟩,
        Nat.le_refl _, Nat.le_refl _⟩
      injection hb with hb
      cases hb
      exact List.nodup_nil
    · rw [if_neg h3] at ha
      injection ha with ha
      subst ha
      refine ⟨⟨hi.1, fun hf => absurd hf hnf, fun b hb => ?_⟩,
        Nat.le_refl _, Nat.le_refl _⟩
      injection hb with hb
      cases hb
      exact nextPasses_nodup _ _ hbase
  | orderUp seat =>
    simp only [applyAction] at ha
    unfold bidOrderUp at ha
    by_cases h1 : s.game.phase ≠ GamePhase.bidding_round_1
    · rw [if_pos h1] at ha; exact Except.noConfusion ha
    rw [if_neg h1] at ha
    by_cases h2 : s.game.turn ≠ seat
    · rw [if_pos h2] at ha; exact Except.noConfusion ha
    rw [if_neg h2] at ha
    rcases hup : s.game.upcard with _ | up
    · rw [hup] at ha; exact Except.noConfusion ha
    rw [hup] at ha
    dsimp only at ha
    injection ha with ha
    subst ha
    have hph : s.game.phase = GamePhase.bidding_round_1 := not_not.mp h1
    have hnf : s.game.status ≠ Status.finished := by
      intro hf
      have hlob := hi.2.1 hf
      rw [hph] at hlob
      exact GamePhase.noConfusion hlob
    have hnot10 : ¬ (10 ≤ s.game.score.NS ∨ 10 ≤ s.game.score.EW) :=
      fun hx => hnf (hi.1.mpr hx)
    refine ⟨⟨iff_of_false (fun hx => Status.noConfusion hx) hnot10,
      fun hf => Status.noConfusion hf, fun b hb => ?_⟩,
      Nat.le_refl _, Nat.le_refl _⟩
    injection hb with hb
    cases hb
    exact passesBase_nodup s hi
  | passR2 seat =>
    simp only [applyAction] at ha
    unfold bidPassRound2 at ha
    by_cases h1 : s.game.phase ≠ GamePhase.bidding_round_2
    · rw [if_pos h1] at ha; exact Except.noConfusion ha
    rw [if_neg h1] at ha
    by_cases h2 : s.game.turn ≠ seat
    · rw [if_pos h2] at ha; exact Except.noConfusion ha
    rw [if_neg h2] at ha
    by_cases hd : seat = s.game.dealer
    · rw [if_pos hd] at ha; exact Except.noConfusion ha
    rw [if_neg hd] at ha
    dsimp only at ha
    have hbase := passesBase_nodup s hi
    by_cases h3 : 3 ≤ (if seat ∈ (s.game.bidding.map Bidding.passes).getD []
        then (s.game.bidding.map Bidding.passes).getD []
        else (s.game.bidding.map Bidding.passes).getD [] ++ [seat]).length
    · rw [if_pos h3] at ha
      injection ha with ha
      subst ha
      refine ⟨⟨hi.1, hi.2.1, fun b hb => ?_⟩, Nat.le_refl _, Nat.le_refl _⟩
      injection hb with hb
      cases hb
      exact nextPasses_nodup _ _ hbase
    · rw [if_neg h3] at ha
      injection ha with ha
      subst ha
      refine ⟨⟨hi.1, hi.2.1, fun b hb => ?_⟩, Nat.le_refl _, Nat.le_refl _⟩
      injection hb with hb
      cases hb
      exact nextPasses_nodup _ _ hbase
  | callTrump seat suit =>
    simp only [applyAction] at ha
    unfold bidCallTrump at ha
    by_cases h1 : s.game.phase ≠ GamePhase.bidding_round_2
    · rw [if_pos h1] at ha; exact Except.noConfusion ha
    rw [if_neg h1] at ha
    by_cases h2 : s.game.turn ≠ seat
    · rw [if_pos h2] at ha; exact Except.noConfusion ha
    rw [if_neg h2] at ha
    rcases hup : s.game.upcard with _ | up
    · rw [hup] at ha; exact Except.noConfusion ha
    rw [hup] at ha
    dsimp only at ha
    by_cases h3 : suit = up.suit
    · rw [if_pos h3] at ha; exact Except.noConfusion ha
    rw [if_neg h3] at ha
    injection ha with ha
    subst ha
    have hph : s.game.phase = GamePhase.bidding_round_2 := not_not.mp h1
    have hnf : s.game.status ≠ Status.finished := by
      intro hf
      have hlob := hi.2.1 hf
      rw [hph] at hlob
      exact GamePhase.noConfusion hlob
    have hnot10 : ¬ (10 ≤ s.game.score.NS ∨ 10 ≤ s.game.score.EW) :=
      fun hx => hnf (hi.1.mpr hx)
    refine ⟨⟨iff_of_false (fun hx => Status.noConfusion hx) hnot10,
      fun hf => Status.noConfusion hf, fun b hb => ?_⟩,
      Nat.le_refl _, Nat.le_refl _⟩
    injection hb with hb
    cases hb
    exact passesBase_nodup s hi
  | discard seat card =>
    simp only [applyAction] at ha
    unfold dealerPickupAndDiscard at ha
    by_cases h1 : s.game.phase ≠ GamePhase.dealer_discard
    · rw [if_pos h1] at ha; exact Except.noConfusion ha
    rw [if_neg h1] at ha
    by_cases h2 : seat ≠ s.game.dealer
    · rw [if_pos h2] at ha; exact Except.noConfusion ha
    rw [if_neg h2] at ha
    by_cases h3 : s.game.turn ≠ s.game.dealer
    · rw [if_pos h3] at ha; exact Except.noConfusion ha
    rw [if_neg h3] at ha
    rcases hup : s.game.upcard with _ | up
    · rw [hup] at ha; exact Except.noConfusion ha
    rw [hup] at ha
    dsimp only at ha
    by_cases h4 : (s.game.seats s.game.dealer).isNone = true
    · rw [if_pos h4] at ha; exact Except.noConfusion ha
    rw [if_neg h4] at ha
    by_cases h5 : (s.hands s.game.dealer).length ≠ 5
    · rw [if_pos h5] at ha; exact Except.noConfusion ha
    rw [if_neg h5] at ha
    by_cases h6 : card ∉ s.hands s.game.dealer ++ [up]
    · rw [if_pos h6] at ha; exact Except.noConfusion ha
    rw [if_neg h6] at ha
    by_cases h7 : (removeOneCard (s.hands s.game.dealer ++ [up]) card).length ≠ 5
    · rw [if_pos h7] at ha; exact Except.noConfusion ha
    rw [if_neg h7] at ha
    injection ha with ha
    subst ha
    have hph : s.game.phase = GamePhase.dealer_discard := not_not.mp h1
    have hnf : s.game.status ≠ Status.finished := by
      intro hf
      have hlob := hi.2.1 hf
      rw [hph] at hlob
      exact GamePhase.noConfusion hlob
    have hnot10 : ¬ (10 ≤ s.game.score.NS ∨ 10 ≤ s.game.score.EW) :=
      fun hx => hnf (hi.1.mpr hx)
    exact ⟨⟨iff_of_false (fun hx => Status.noConfusion hx) hnot10,
      fun hf => Status.noConfusion hf, hi.2.2⟩, Nat.le_refl _, Nat.le_refl _⟩
  | play seat card =>
    exact playCard_preserves s seat card s' ha hi

/-- The freshly created game satisfies the invariant. -/
theorem ginv_init (uid : String) : GInv (initState uid) := by
  refine ⟨?_, ?_, ?_⟩
  · simp [initState]
  · intro hf
    exact absurd hf (by simp [initState])
  · intro b hb
    exact Option.noConfusion hb

/-- Every state reachable from a freshly created game satisfies the
invariant. -/
theorem reachable_ginv (s : GState) (h : Reachable s) : GInv s := by
  obtain ⟨uid, hr⟩ := h
  induction hr with
  | refl => exact ginv_init uid
  | tail _ hstep ih => exact (step_preserves _ _ hstep ih).1

/-- C7: along every committed step out of a reachable state neither
team's score decreases, and a reachable state is terminal (status
`finished`, after which a hand-start attempt can never commit) exactly
when some team's score has reached 10 — never before. -/
theorem c7_score_monotone_terminal (s s' : GState) (hr : Reachable s)
    (hstep : Step s s') :
    (s.game.score.NS ≤ s'.game.score.NS ∧
      s.game.score.EW ≤ s'.game.score.EW) ∧
    (s.game.status = Status.finished ↔
      10 ≤ s.game.score.NS ∨ 10 ≤ s.game.score.EW) ∧
    (s.game.status = Status.finished →
      ∀ s'' : GState, applyAction GAction.start s ≠ Except.ok s'') := by
  have hi := reachable_ginv s hr
  have hp := step_preserves s s' hstep hi
  refine ⟨⟨hp.2.1, hp.2.2⟩, hi.1, ?_⟩
  intro _ s'' hok
  simp only [applyAction] at hok
  unfold startHand at hok
  split_ifs at hok

/-- The state after the creator's friend claims seat E in a fresh
game. -/
def afterClaim : GState :=
  { game := { (initState "alice").game with
      seats := fun x =>
        if x = Seat.E then some "bob" else (initState "alice").game.seats x },
    hands := (initState "alice").hands }

/-- C7 witness: `c7_score_monotone_terminal` applied to a fresh game
and the committed seat-claim step out of it. -/
theorem c7_witness :
    (((initState "alice").game.score.NS ≤ afterClaim.game.score.NS ∧
      (initState "alice").game.score.EW ≤ afterClaim.game.score.EW) ∧
     ((initState "alice").game.status = Status.finished ↔
       10 ≤ (initState "alice").game.score.NS ∨
       10 ≤ (initState "alice").game.score.EW) ∧
     ((initState "alice").game.status = Status.finished →
       ∀ s'' : GState,
         applyAction GAction.start (initState "alice") ≠ Except.ok s'')) :=
  c7_score_monotone_terminal (initState "alice") afterClaim
    ⟨"alice", Relation.ReflTransGen.refl⟩
    ⟨GAction.claim "bob" Seat.E, rfl⟩

/-- C10: in every reachable game state the bidding passes list — the
`bidding?.passes ?? []` read every pass action performs — holds each
seat at most once (both pass actions append the acting seat only when
it is absent, and every other write of the record keeps or resets the
list — see `step_preserves` and `nextPasses_nodup`). -/
theorem c10_passes_nodup (s : GState) (hr : Reachable s) :
    ((s.game.bidding.map Bidding.passes).getD []).Nodup :=
  passesBase_nodup s (reachable_ginv s hr)

/-- C10 witness: `c10_passes_nodup` applied to a fresh game. -/
theorem c10_witness :
    (((initState "carol").game.bidding.map Bidding.passes).getD []).Nodup :=
  c10_passes_nodup (initState "carol") ⟨"carol", Relation.ReflTransGen.refl⟩
